import Mathlib

/-!
# Verification of `aggregation.py` (raster block-aggregation tool)

Shallow embedding of `src/aggregation.py` (a Python 2.7 / numpy 1.8 / GDAL
script).  The script reduces the resolution of a single-band raster by an
integer cell factor, aggregating each `factor × factor` sub-block of cells
with one of the statistics MAX, MIN, AVG, SUM, STD.

Modelling conventions:
* Cell values are rationals (`ℚ`).  The claims under scrutiny concern
  dimension arithmetic, NaN/NoData routing, tiling and exact small-integer
  statistics, none of which depend on floating-point rounding.
* numpy's `nan` is modelled by `none : Option ℚ`; an ordinary value `x` by
  `some x`.  numpy's plain reductions (`max`, `min`, `mean`, `sum`, `std`)
  propagate NaN (any NaN input makes the result NaN); the `nan*` variants
  ignore NaN values and yield NaN when *all* inputs are NaN.  (The script
  declares python 2.7.7 / a 2014 environment, i.e. numpy 1.8, where
  `nansum` of an all-NaN array is still NaN, like the other `nan*`
  reductions.)
* `numpy.std` is `sqrt(mean((x - mean x)^2))`.  Its square (the population
  variance) is what we embed (`npStdSq`), since `ℚ` is closed under every
  other operation involved; every claim about STD (NaN-ness, and the
  `N` vs `N−1` divisor) is a statement about the variance, and `sqrt` is a
  strictly monotone bijection on the nonnegative rationals.
* GDAL I/O is the collaborator boundary: a run is embedded as the list of
  I/O events the script performs (creating the output, reading blocks,
  writing aggregated blocks), plus the python `KeyError` raised by the
  statistic dispatch `functions[aggr_type]` when the key is unknown.
  Python integer division `/` on nonnegative ints is `Nat` division.
-/

/-- A NaN-or-number cell value: `none` is numpy's `nan`. -/
abbrev Val : Type := Option ℚ

/-- Input raster band as seen through GDAL: `RasterYSize`, `RasterXSize`,
`GetNoDataValue()` (`none` when the band declares no NoData) and the raw
cell values (`cell row col`). -/
structure RasterIn where
  rows : ℕ
  cols : ℕ
  nodata : Option ℚ
  cell : ℕ → ℕ → ℚ

/-- `aggregation.py` line 41: the NoData default `-3.4028234663852886e+38`
used when the source band declares none. -/
def defaultND : ℚ := -34028234663852886 * 10 ^ 22

/-- Line 26: `functions = {'MAX':'max', 'MIN':'min', 'AVG':'mean',
'SUM':'sum', 'STD':'std'}`. -/
def functions : List (String × String) :=
  [("MAX", "max"), ("MIN", "min"), ("AVG", "mean"), ("SUM", "sum"), ("STD", "std")]

/-- Lines 44–49: output extent.  Python 2 `/` on ints is floor division.
`expand`: `(n + cellfact - n % cellfact) / cellfact`;
otherwise  `(n - n % cellfact) / cellfact`. -/
def outSize (n cellfact : ℕ) (expand : Bool) : ℕ :=
  if expand then (n + cellfact - n % cellfact) / cellfact
  else (n - n % cellfact) / cellfact

/-- numpy max over a nonempty list (the `[]` default is never reached by the
script: sub-blocks are nonempty). -/
def qmax : List ℚ → ℚ
  | [] => 0
  | x :: xs => xs.foldl max x

/-- numpy min over a nonempty list (the `[]` default is never reached). -/
def qmin : List ℚ → ℚ
  | [] => 0
  | x :: xs => xs.foldl min x

/-- numpy mean: sum divided by length. -/
def qmean (xs : List ℚ) : ℚ := xs.sum / (xs.length : ℚ)

/-- The square of `numpy.std`: the population variance
`mean ((x - mean xs)^2)`. -/
def npStdSq (xs : List ℚ) : ℚ := qmean (xs.map fun x => (x - qmean xs) ^ 2)

/-- Dispatch for the numpy reduction names stored in `functions`
(line 26), applied to the non-NaN values of a sub-block.  `"std"` is
embedded by its square, see the header comment. -/
def qstat : String → List ℚ → ℚ
  | "max", xs => qmax xs
  | "min", xs => qmin xs
  | "mean", xs => qmean xs
  | "sum", xs => xs.sum
  | "std", xs => npStdSq xs
  | _, _ => 0

/-- Lines 27–30 and 104–105: the statistic applied to one sub-block.
`prop_nodata = true` selects the plain numpy reduction (`ign = ''`), which
yields NaN as soon as any input is NaN; `prop_nodata = false` selects the
`nan`-prefixed variant (`ign = 'nan'`), which drops NaN inputs and yields
NaN when every input is NaN (numpy 1.8 semantics, including `nansum`). -/
def applyStat (prop_nodata : Bool) (fname : String) (vals : List Val) : Val :=
  if prop_nodata then
    if vals.any Option.isNone then none
    else some (qstat fname (vals.filterMap id))
  else
    let ks := vals.filterMap id
    if ks.isEmpty then none else some (qstat fname ks)

/-- Python `range(0, stop, step)` for `step > 0`, as a list. -/
def rangeBy (stop step : ℕ) : List ℕ :=
  (List.range ((stop + step - 1) / step)).map (· * step)

/-- Lines 62–71: the row (resp. column) offsets of the tile grid. -/
def blockStarts (total bsize : ℕ) : List ℕ := rangeBy total bsize

/-- Lines 63–66 / 68–71: size of the tile starting at `start`:
`bsize` when `start + bsize < total`, else `total - start`. -/
def numIn (total bsize start : ℕ) : ℕ :=
  if start + bsize < total then bsize else total - start

/-- The tiles visited by the double loop of lines 62–71, in order, as
`(i, numRows, j, numCols)`.  The block size is `200 * cellfact`
(lines 60–61). -/
def tiles (rows cols cellfact : ℕ) : List (ℕ × ℕ × ℕ × ℕ) :=
  (blockStarts rows (200 * cellfact)).flatMap fun i =>
    (blockStarts cols (200 * cellfact)).map fun j =>
      (i, numIn rows (200 * cellfact) i, j, numIn cols (200 * cellfact) j)

/-- Line 74: `band.ReadAsArray(j, i, numCols, numRows)` — the raw tile,
row-major. -/
def readBlock (src : RasterIn) (j i numCols numRows : ℕ) : List (List ℚ) :=
  (List.range numRows).map fun r => (List.range numCols).map fun c => src.cell (i + r) (j + c)

/-- Line 75: `numpy.where(array==ND, numpy.nan, array)`. -/
def substND (nd : ℚ) (a : List (List ℚ)) : List (List Val) :=
  a.map fun row => row.map fun x => if x = nd then none else some x

/-- Lines 78–85: row edge-normalization.  When `numRows % cellfact ≠ 0`,
expand mode appends `cellfact - numRows % cellfact` rows of NaN; shrink
mode drops the last `numRows % cellfact` rows
(`data[0:-(numRows%cellfact),:]`). -/
def adjustRows (cellfact : ℕ) (expand : Bool) (numRows numCols : ℕ)
    (d : List (List Val)) : List (List Val) :=
  if numRows % cellfact ≠ 0 then
    if expand then
      d ++ List.replicate (cellfact - numRows % cellfact) (List.replicate numCols (none : Val))
    else d.take (numRows - numRows % cellfact)
  else d

/-- Lines 88–95: column edge-normalization, the symmetric rule applied to
the (possibly row-adjusted) buffer. -/
def adjustCols (cellfact : ℕ) (expand : Bool) (numCols : ℕ)
    (d : List (List Val)) : List (List Val) :=
  if numCols % cellfact ≠ 0 then
    if expand then
      d.map fun row => row ++ List.replicate (cellfact - numCols % cellfact) (none : Val)
    else d.map fun row => row.take (numCols - numCols % cellfact)
  else d

/-- Lines 74–95 composed: the normalized working buffer of one tile. -/
def tileData (cellfact : ℕ) (expand : Bool) (nd : ℚ) (src : RasterIn)
    (i numRows j numCols : ℕ) : List (List Val) :=
  adjustCols cellfact expand numCols
    (adjustRows cellfact expand numRows numCols
      (substND nd (readBlock src j i numCols numRows)))

/-- Line 104: `data[x:cellfact+x, y:cellfact+y]`, flattened row-major (the
order numpy reduces over is irrelevant to the reductions used). -/
def subblockVals (cellfact : ℕ) (d : List (List Val)) (x y : ℕ) : List Val :=
  (((d.drop x).take cellfact).map fun row => (row.drop y).take cellfact).flatten

/-- Lines 99–107: the aggregated output tile.  The double loop appends one
scalar per sub-block into a flat array which is then reshaped to
`(nrows/cellfact) × (ncols/cellfact)`. -/
def tileAggregate (cellfact : ℕ) (expand prop_nodata : Bool) (fname : String)
    (nd : ℚ) (src : RasterIn) (i numRows j numCols : ℕ) : List (List Val) :=
  let d := tileData cellfact expand nd src i numRows j numCols
  let nrows := d.length
  let ncols := (d.headD []).length
  let flat := (rangeBy nrows cellfact).flatMap fun x =>
    (rangeBy ncols cellfact).map fun y =>
      applyStat prop_nodata fname (subblockVals cellfact d x y)
  (List.range (nrows / cellfact)).map fun r =>
    (flat.drop (r * (ncols / cellfact))).take (ncols / cellfact)

/-- One observable I/O action of a run (the GDAL collaborator boundary),
plus the python `KeyError` from the dispatch `functions[aggr_type]`. -/
inductive Event where
  | create (outCols outRows : ℕ)
  | read (xoff yoff xsize ysize : ℕ)
  | write (tile : List (List Val)) (xoff yoff : ℕ)
  | keyError (key : String)
  deriving DecidableEq

/-- Lines 62–110: process the tiles in order.  For each tile the script
reads the block, normalizes it and aggregates; the statistic lookup
`functions[aggr_type]` is only evaluated inside the sub-block loop
(line 105), so an unknown `aggr_type` raises `KeyError` — aborting the
whole run — exactly when the tile has at least one sub-block, i.e. when
the normalized buffer is nonempty in both axes.  Otherwise the aggregated
tile is written at `(j/cellfact, i/cellfact)` (line 110). -/
def goTiles (cellfact : ℕ) (expand prop_nodata : Bool) (aggr_type : String)
    (nd : ℚ) (src : RasterIn) : List (ℕ × ℕ × ℕ × ℕ) → List Event
  | [] => []
  | (i, numRows, j, numCols) :: rest =>
    Event.read j i numCols numRows ::
      (let d := tileData cellfact expand nd src i numRows j numCols
       if 0 < d.length ∧ 0 < (d.headD []).length ∧ (List.lookup aggr_type functions).isNone then
         [Event.keyError aggr_type]
       else
         Event.write
             (tileAggregate cellfact expand prop_nodata
               ((List.lookup aggr_type functions).getD "") nd src i numRows j numCols)
             (j / cellfact) (i / cellfact)
           :: goTiles cellfact expand prop_nodata aggr_type nd src rest)

/-- The whole of `ras_aggregation` (lines 23–112) as its I/O event trace:
create the output with the extent of lines 44–49, then run the tile loop.
(The geotransform/projection bookkeeping of lines 54–57 is pass-through
metadata and not modelled; output creation is assumed to succeed, as the
sink is the collaborator boundary.) -/
def runEvents (src : RasterIn) (cellfact : ℕ) (aggr_type : String)
    (expand prop_nodata : Bool) : List Event :=
  let nd := src.nodata.getD defaultND
  Event.create (outSize src.cols cellfact expand) (outSize src.rows cellfact expand) ::
    goTiles cellfact expand prop_nodata aggr_type nd src (tiles src.rows src.cols cellfact)

/-- Line 23: the python defaults of `ras_aggregation`'s keyword
parameters: `aggr_type='AVG', expand=True, prop_nodata=True`. -/
def ras_aggregation_default_aggr_type : String := "AVG"

/-- Line 23: default of `expand` in `ras_aggregation`'s signature. -/
def ras_aggregation_default_expand : Bool := true

/-- Line 23: default of `prop_nodata` in `ras_aggregation`'s signature. -/
def ras_aggregation_default_prop_nodata : Bool := true

/-- Line 125: argparse default for `-at` (`default='AVG'`). -/
def cli_default_aggreg : String := "AVG"

/-- Line 128: argparse default for `-e` (`default=False`); the `__main__`
block always passes `expand=args.exp` explicitly (line 137). -/
def cli_default_exp : Bool := false

/-- Line 131: argparse default for `-nd` (`default=False`); the `__main__`
block always passes `prop_nodata=args.nodata` explicitly (line 137). -/
def cli_default_nodata : Bool := false

/-- A raster whose band declares no NoData value and whose cells all hold
`q`. -/
def plainRaster (rows cols : ℕ) (q : ℚ) : RasterIn :=
  ⟨rows, cols, none, fun _ _ => q⟩

/-- A raster declaring NoData `q` with every cell equal to `q` (all
missing). -/
def constRaster (rows cols : ℕ) (q : ℚ) : RasterIn :=
  ⟨rows, cols, some q, fun _ _ => q⟩

/-- The spec's concrete scenario: a 4×4 band holding 1..16 row-major, no
declared NoData. -/
def grid16 : RasterIn :=
  ⟨4, 4, none, fun r c => ((4 * r + c + 1 : ℕ) : ℚ)⟩

/-! ## Shape lemmas for the working buffer -/

lemma readBlock_length (src : RasterIn) (j i nC nR : ℕ) :
    (readBlock src j i nC nR).length = nR := by
  simp [readBlock]

lemma readBlock_rowlen (src : RasterIn) (j i nC nR : ℕ) :
    ∀ row ∈ readBlock src j i nC nR, row.length = nC := by
  intro row hrow
  simp only [readBlock, List.mem_map] at hrow
  obtain ⟨r, _, rfl⟩ := hrow
  simp

lemma substND_length (nd : ℚ) (a : List (List ℚ)) :
    (substND nd a).length = a.length := by
  simp [substND]

lemma substND_rowlen (nd : ℚ) (a : List (List ℚ)) (nC : ℕ)
    (h : ∀ row ∈ a, row.length = nC) :
    ∀ row ∈ substND nd a, row.length = nC := by
  intro row hrow
  simp only [substND, List.mem_map] at hrow
  obtain ⟨r, hr, rfl⟩ := hrow
  simp [h r hr]

lemma adjustRows_length (F : ℕ) (e : Bool) (nR nC : ℕ) (d : List (List Val))
    (hd : d.length = nR) :
    (adjustRows F e nR nC d).length =
      if nR % F = 0 then nR else if e then nR + (F - nR % F) else nR - nR % F := by
  unfold adjustRows
  by_cases h0 : nR % F = 0
  · simp [h0, hd]
  · cases e
    · simp only [h0, ne_eq, not_false_eq_true, if_true, Bool.false_eq_true, if_false]
      simp [hd]
    · simp only [h0, ne_eq, not_false_eq_true, if_true, if_false]
      simp [hd, h0]

lemma adjustRows_rowlen (F : ℕ) (e : Bool) (nR nC : ℕ) (d : List (List Val))
    (h : ∀ row ∈ d, row.length = nC) :
    ∀ row ∈ adjustRows F e nR nC d, row.length = nC := by
  unfold adjustRows
  split_ifs with h1 h2
  · intro row hrow
    rcases List.mem_append.1 hrow with hm | hm
    · exact h row hm
    · rw [List.eq_of_mem_replicate hm]
      simp
  · intro row hrow
    exact h row (List.take_subset _ _ hrow)
  · exact h

lemma adjustCols_length (F : ℕ) (e : Bool) (nC : ℕ) (d : List (List Val)) :
    (adjustCols F e nC d).length = d.length := by
  unfold adjustCols
  split_ifs <;> simp

lemma adjustCols_rowlen (F : ℕ) (e : Bool) (nC : ℕ) (d : List (List Val))
    (h : ∀ row ∈ d, row.length = nC) :
    ∀ row ∈ adjustCols F e nC d,
      row.length = if nC % F = 0 then nC else if e then nC + (F - nC % F) else nC - nC % F := by
  unfold adjustCols
  by_cases h0 : nC % F = 0
  · simpa [h0] using h
  · cases e
    · simp only [h0, ne_eq, not_false_eq_true, if_true, Bool.false_eq_true, if_false]
      intro row hrow
      obtain ⟨r, hr, rfl⟩ := List.mem_map.1 hrow
      simp [h r hr]
    · simp only [h0, ne_eq, not_false_eq_true, if_true, if_false]
      intro row hrow
      obtain ⟨r, hr, rfl⟩ := List.mem_map.1 hrow
      simp [h r hr]

lemma mod_pad_zero (n F : ℕ) (hF : 0 < F) : (n + (F - n % F)) % F = 0 := by
  have h1 := Nat.div_add_mod n F
  have h2 : n % F < F := Nat.mod_lt _ hF
  have h3 : n + (F - n % F) = F * (n / F) + F := by omega
  rw [h3, show F * (n / F) + F = F * (n / F + 1) from by ring, Nat.mul_mod_right]

lemma mod_trim_zero (n F : ℕ) : (n - n % F) % F = 0 := by
  have h1 := Nat.div_add_mod n F
  have h3 : n - n % F = F * (n / F) := by omega
  rw [h3, Nat.mul_mod_right]

lemma tileData_length (F : ℕ) (e : Bool) (nd : ℚ) (src : RasterIn) (i nR j nC : ℕ) :
    (tileData F e nd src i nR j nC).length =
      if nR % F = 0 then nR else if e then nR + (F - nR % F) else nR - nR % F := by
  unfold tileData
  rw [adjustCols_length, adjustRows_length]
  rw [substND_length, readBlock_length]

lemma tileData_rowlen (F : ℕ) (e : Bool) (nd : ℚ) (src : RasterIn) (i nR j nC : ℕ) :
    ∀ row ∈ tileData F e nd src i nR j nC,
      row.length = if nC % F = 0 then nC else if e then nC + (F - nC % F) else nC - nC % F := by
  unfold tileData
  exact adjustCols_rowlen _ _ _ _
    (adjustRows_rowlen _ _ _ _ _ (substND_rowlen _ _ _ (readBlock_rowlen _ _ _ _ _)))

lemma numIn_pos (total bsize : ℕ) (ht : 0 < total) (hb : 0 < bsize) :
    0 < numIn total bsize 0 := by
  unfold numIn
  split <;> omega

lemma blockStarts_head (n b : ℕ) (hn : 0 < n) (hb : 0 < b) :
    ∃ t, blockStarts n b = 0 :: t := by
  have h1 : 0 < (n + b - 1) / b := (Nat.one_le_div_iff hb).2 (by omega)
  obtain ⟨k, hk⟩ : ∃ k, (n + b - 1) / b = k + 1 := ⟨(n + b - 1) / b - 1, by omega⟩
  refine ⟨((List.range k).map Nat.succ).map (· * b), ?_⟩
  rw [blockStarts, rangeBy, hk, List.range_succ_eq_map]
  simp

lemma tiles_head (rows cols F : ℕ) (hr : 0 < rows) (hc : 0 < cols) (hF : 0 < F) :
    ∃ t, tiles rows cols F =
      (0, numIn rows (200 * F) 0, 0, numIn cols (200 * F) 0) :: t := by
  obtain ⟨t1, h1⟩ := blockStarts_head rows (200 * F) hr (by omega)
  obtain ⟨t2, h2⟩ := blockStarts_head cols (200 * F) hc (by omega)
  exact ⟨_, by rw [tiles, h1, h2, List.flatMap_cons, List.map_cons, List.cons_append]⟩

lemma flatten_eq_nil_of_forall {l : List (List Val)} (h : ∀ x ∈ l, x = []) :
    l.flatten = [] := by
  induction l with
  | nil => rfl
  | cons a t ih =>
    rw [List.flatten_cons, h a (List.mem_cons_self a t),
      ih fun x hx => h x (List.mem_cons_of_mem _ hx)]
    rfl

/-! ## Claims -/

/-- C5: for the 4×4 input grid holding 1..16 row-major with `factor = 2`,
statistic SUM, no NoData cells and `expand = false`, the run creates a 2×2
output and writes the single tile `[[14, 22], [46, 54]]` at offset (0, 0)
(shown for both settings of `prop_nodata`, which the claim leaves open). -/
theorem claim_C5_concrete_sum : ∀ prop_nodata : Bool,
    runEvents grid16 2 "SUM" false prop_nodata =
      [Event.create 2 2, Event.read 0 0 4 4,
       Event.write [[some 14, some 22], [some 46, some 54]] 0 0] := by
  have hl : List.lookup "SUM" functions = some "sum" := rfl
  have hq : ∀ xs : List ℚ, qstat "sum" xs = xs.sum := fun xs => rfl
  intro prop_nodata
  cases prop_nodata
  · norm_num [runEvents, goTiles, tiles, blockStarts, rangeBy, numIn, tileData, readBlock,
      substND, adjustRows, adjustCols, tileAggregate, subblockVals, applyStat,
      defaultND, outSize, grid16, hl, hq, List.range_succ, List.filterMap_cons,
      List.sum_cons, List.sum_nil]
    simp
  · norm_num [runEvents, goTiles, tiles, blockStarts, rangeBy, numIn, tileData, readBlock,
      substND, adjustRows, adjustCols, tileAggregate, subblockVals, applyStat,
      defaultND, outSize, grid16, hl, hq, List.range_succ, List.filterMap_cons,
      List.sum_cons, List.sum_nil]
    simp

/-- C1 (evaluation of the defect): with `rows = cols = 4` and
`factor = 2` — exact multiples — the expand-mode extent formula allocates
a 3×3 output (`outSize 4 2 true = 3`, not `ceil(4/2) = 2` as the claim
states), while shrink mode gives the claimed 2×2; the expand run then
writes only one 2×2 tile at offset (0, 0), so the spurious third row and
column of the created raster are never written. -/
theorem claim_C1_expand_extra_rowcol :
    outSize 4 2 true = 3 ∧ outSize 4 2 false = 2 ∧
    runEvents grid16 2 "SUM" true false =
      [Event.create 3 3, Event.read 0 0 4 4,
       Event.write [[some 14, some 22], [some 46, some 54]] 0 0] := by
  have hl : List.lookup "SUM" functions = some "sum" := rfl
  have hq : ∀ xs : List ℚ, qstat "sum" xs = xs.sum := fun xs => rfl
  refine ⟨by decide, by decide, ?_⟩
  norm_num [runEvents, goTiles, tiles, blockStarts, rangeBy, numIn, tileData, readBlock,
    substND, adjustRows, adjustCols, tileAggregate, subblockVals, applyStat,
    defaultND, outSize, grid16, hl, hq, List.range_succ, List.filterMap_cons,
    List.sum_cons, List.sum_nil]
  simp

/-- C2 (counterexample): on a 2×2 band whose declared NoData is 9 and
whose cells are all 9, with `factor = 2`, statistic AVG and NoData-ignore,
the run writes the tile `[[none]]`: a not-a-number scalar reaches the sink
unconverted, so the claim that every NaN is turned back into the NoData
sentinel before writing is false. -/
theorem claim_C2_counterexample :
    runEvents (constRaster 2 2 9) 2 "AVG" false false =
      [Event.create 1 1, Event.read 0 0 2 2, Event.write [[none]] 0 0] := by
  have hl : List.lookup "AVG" functions = some "mean" := rfl
  norm_num [runEvents, goTiles, tiles, blockStarts, rangeBy, numIn, tileData, readBlock,
    substND, adjustRows, adjustCols, tileAggregate, subblockVals, applyStat,
    defaultND, outSize, constRaster, hl, List.range_succ, List.filterMap_cons]

/-- C2 (amended): the script applies no NaN-to-NoData conversion before
writing: for every declared sentinel value and either NoData policy, the
all-NoData 2×2 band produces a written tile holding NaN (`none`), never
the sentinel. -/
theorem claim_C2_nan_written_asis : ∀ (nd : ℚ) (prop_nodata : Bool),
    runEvents (constRaster 2 2 nd) 2 "AVG" false prop_nodata =
      [Event.create 1 1, Event.read 0 0 2 2, Event.write [[none]] 0 0] := by
  have hl : List.lookup "AVG" functions = some "mean" := rfl
  intro nd prop_nodata
  cases prop_nodata
  · norm_num [runEvents, goTiles, tiles, blockStarts, rangeBy, numIn, tileData, readBlock,
      substND, adjustRows, adjustCols, tileAggregate, subblockVals, applyStat,
      defaultND, outSize, constRaster, hl, List.range_succ, List.filterMap_cons]
  · norm_num [runEvents, goTiles, tiles, blockStarts, rangeBy, numIn, tileData, readBlock,
      substND, adjustRows, adjustCols, tileAggregate, subblockVals, applyStat,
      defaultND, outSize, constRaster, hl, List.range_succ, List.filterMap_cons]

/-- C3 (counterexample): (i) with the unknown statistic "FOO" the run
creates the output and reads a block before failing with a `KeyError`
(there is no `InvalidArgument` and the failure is not before I/O);
(ii) with `factor = 1` — not an integer greater than 1 — the run completes
normally with no failure at all. -/
theorem claim_C3_counterexample :
    runEvents (plainRaster 2 2 5) 2 "FOO" false false =
      [Event.create 1 1, Event.read 0 0 2 2, Event.keyError "FOO"] ∧
    runEvents (plainRaster 1 1 5) 1 "AVG" false false =
      [Event.create 1 1, Event.read 0 0 1 1, Event.write [[some 5]] 0 0] := by
  have hl : List.lookup "FOO" functions = none := rfl
  have hl2 : List.lookup "AVG" functions = some "mean" := rfl
  have hq : ∀ xs : List ℚ, qstat "mean" xs = qmean xs := fun xs => rfl
  constructor
  · norm_num [runEvents, goTiles, tiles, blockStarts, rangeBy, numIn, tileData, readBlock,
      substND, adjustRows, adjustCols, tileAggregate, subblockVals, applyStat,
      defaultND, outSize, plainRaster, hl, List.range_succ, List.filterMap_cons]
  · norm_num [runEvents, goTiles, tiles, blockStarts, rangeBy, numIn, tileData, readBlock,
      substND, adjustRows, adjustCols, tileAggregate, subblockVals, applyStat, qmean,
      defaultND, outSize, plainRaster, hl2, hq, List.range_succ, List.filterMap_cons]

/-- C9: `ras_aggregation`'s own keyword defaults are `expand = True` and
`prop_nodata = True` — the opposite of the argparse defaults for `-e` and
`-nd` (both `False`), which the `__main__` block always passes explicitly;
the two settings produce observably different runs (already the created
output extent differs on the 4×4 grid). -/
theorem claim_C9_defaults_mismatch :
    ras_aggregation_default_expand = true ∧
    ras_aggregation_default_prop_nodata = true ∧
    cli_default_exp = false ∧ cli_default_nodata = false ∧
    runEvents grid16 2 ras_aggregation_default_aggr_type
        ras_aggregation_default_expand ras_aggregation_default_prop_nodata ≠
      runEvents grid16 2 cli_default_aggreg cli_default_exp cli_default_nodata := by
  refine ⟨rfl, rfl, rfl, rfl, fun h => ?_⟩
  have h0 := congrArg List.head? h
  simp [runEvents, outSize, ras_aggregation_default_aggr_type,
    ras_aggregation_default_expand, ras_aggregation_default_prop_nodata,
    cli_default_aggreg, cli_default_exp, cli_default_nodata, grid16] at h0

lemma filterMap_id_eq_nil {vals : List Val} (h : ∀ v ∈ vals, v = none) :
    vals.filterMap id = [] := by
  induction vals with
  | nil => rfl
  | cons a t ih =>
    have ha := h a (List.mem_cons_self a t)
    subst ha
    simpa using ih fun v hv => h v (List.mem_cons_of_mem _ hv)

/-- C4: a sub-block with at least one NoData (NaN) cell aggregates to NaN
under `prop_nodata = true`; a sub-block with some but not only NaN cells
aggregates, under `prop_nodata = false`, to the selected statistic of the
surviving non-NaN values; and an all-NaN sub-block aggregates to NaN under
either policy. -/
theorem claim_C4_nodata_law (prop_nodata : Bool) (fname : String) (vals : List Val) :
    (none ∈ vals → applyStat true fname vals = none) ∧
    (none ∈ vals → (∃ q : ℚ, some q ∈ vals) →
      applyStat false fname vals = some (qstat fname (vals.filterMap id))) ∧
    (vals ≠ [] → (∀ v ∈ vals, v = none) → applyStat prop_nodata fname vals = none) := by
  refine ⟨?_, ?_, ?_⟩
  · intro h
    have hany : vals.any Option.isNone = true := List.any_eq_true.2 ⟨none, h, rfl⟩
    simp [applyStat, hany]
  · intro _ h2
    obtain ⟨q, hq⟩ := h2
    have hm : q ∈ vals.filterMap id := List.mem_filterMap.2 ⟨some q, hq, rfl⟩
    have hne : vals.filterMap id ≠ [] := List.ne_nil_of_mem hm
    simp [applyStat, List.isEmpty_iff, hne]
  · intro hne hall
    cases prop_nodata
    · have hks : vals.filterMap id = [] := filterMap_id_eq_nil hall
      simp [applyStat, hks]
    · obtain ⟨v, hv⟩ := List.exists_mem_of_ne_nil vals hne
      have hany : vals.any Option.isNone = true :=
        List.any_eq_true.2 ⟨v, hv, by rw [hall v hv]; rfl⟩
      simp [applyStat, hany]

/-- C4 (witness): the three cases of the NoData law evaluated on concrete
sub-blocks. -/
theorem claim_C4_witness :
    applyStat true "mean" [none, some 2] = none ∧
    applyStat false "mean" [none, some 2] =
      some (qstat "mean" ([none, some 2].filterMap id)) ∧
    applyStat false "mean" [(none : Val), none] = none :=
  ⟨(claim_C4_nodata_law false "mean" [none, some 2]).1 (by decide),
   (claim_C4_nodata_law false "mean" [none, some 2]).2.1 (by decide) ⟨2, by decide⟩,
   (claim_C4_nodata_law false "mean" [(none : Val), none]).2.2 (by decide) (by decide)⟩

/-- C10: on a NaN-free, nonempty sub-block the NaN-propagating and the
NaN-ignoring variants of every statistic agree, so the aggregated scalar
does not depend on `prop_nodata`. -/
theorem claim_C10_nanfree_agreement (fname : String) (vals : List Val)
    (h1 : vals ≠ []) (h2 : none ∉ vals) :
    applyStat true fname vals = applyStat false fname vals := by
  have hany : vals.any Option.isNone = false := by
    rw [List.any_eq_false]
    intro v hv
    cases v with
    | none => exact absurd hv h2
    | some q => simp
  obtain ⟨v, hv⟩ := List.exists_mem_of_ne_nil vals h1
  obtain ⟨q, rfl⟩ : ∃ q : ℚ, v = some q := by
    cases v with
    | none => exact absurd hv h2
    | some q => exact ⟨q, rfl⟩
  have hm : q ∈ vals.filterMap id := List.mem_filterMap.2 ⟨some q, hv, rfl⟩
  have hne : vals.filterMap id ≠ [] := List.ne_nil_of_mem hm
  simp [applyStat, hany, List.isEmpty_iff, hne]

/-- C10 (witness): both policies give the same scalar on a concrete
NaN-free sub-block. -/
theorem claim_C10_witness :
    applyStat true "sum" [some 1, some 2] = applyStat false "sum" [some 1, some 2] :=
  claim_C10_nanfree_agreement "sum" [some 1, some 2] (by decide) (by decide)

/-- C7: the STD scalar of a sub-block is the population standard
deviation of the non-ignored values: the embedded square of `numpy.std`
satisfies `variance * N = sum of squared deviations from the mean` — the
divisor is the count `N` of values entering the statistic — and at the
concrete input `[0, 2]` the variance is `1`, whereas the `N − 1` divisor
would give `2`. -/
theorem claim_C7_std_divisor :
    (∀ vals : List Val, vals.filterMap id ≠ [] →
        applyStat false "std" vals = some (npStdSq (vals.filterMap id))) ∧
    (∀ xs : List ℚ, xs ≠ [] →
        npStdSq xs * (xs.length : ℚ) = (xs.map fun x => (x - qmean xs) ^ 2).sum) ∧
    npStdSq [0, 2] = 1 ∧
    (([0, 2] : List ℚ).map fun x => (x - qmean [0, 2]) ^ 2).sum / (2 - 1) = 2 := by
  refine ⟨?_, ?_, ?_, ?_⟩
  · intro vals h
    have hq : ∀ xs : List ℚ, qstat "std" xs = npStdSq xs := fun _ => rfl
    simp [applyStat, List.isEmpty_iff, h, hq]
  · intro xs hxs
    have hn : (xs.length : ℚ) ≠ 0 :=
      Nat.cast_ne_zero.2 fun h0 => hxs (List.length_eq_zero.1 h0)
    unfold npStdSq qmean
    rw [List.length_map]
    exact div_mul_cancel₀ _ hn
  · norm_num [npStdSq, qmean, List.sum_cons, List.sum_nil]
  · norm_num [qmean, List.sum_cons, List.sum_nil]

/-- C7 (witness): the STD law evaluated on concrete sub-blocks. -/
theorem claim_C7_witness :
    applyStat false "std" [some 0, none, some 2] =
      some (npStdSq ([some 0, none, some 2].filterMap id)) ∧
    npStdSq [1, 3] * (([1, 3] : List ℚ).length : ℚ) =
      (([1, 3] : List ℚ).map fun x => (x - qmean [1, 3]) ^ 2).sum :=
  ⟨claim_C7_std_divisor.1 [some 0, none, some 2] (by decide),
   claim_C7_std_divisor.2.1 [1, 3] (by decide)⟩

/-- C8: in shrink mode (`expand = false`) a tile whose row count is below
the factor normalizes to an empty buffer and aggregates to an empty tile
(zero output rows); a tile whose column count is below the factor
aggregates to rows of zero cells; in either case the buffer handed to
`WriteArray` holds no cell at all, so nothing is written to the sink for
that tile. -/
theorem claim_C8_empty_trailing_tile (F : ℕ) (prop_nodata : Bool) (fname : String)
    (nd : ℚ) (src : RasterIn) (i nR j nC : ℕ) (hF : 0 < F) :
    (nR < F → tileAggregate F false prop_nodata fname nd src i nR j nC = []) ∧
    (nC < F → ∀ row ∈ tileAggregate F false prop_nodata fname nd src i nR j nC, row = []) ∧
    ((nR < F ∨ nC < F) →
      (tileAggregate F false prop_nodata fname nd src i nR j nC).flatten = []) := by
  have p1 : nR < F → tileAggregate F false prop_nodata fname nd src i nR j nC = [] := by
    intro h
    have hlen := tileData_length F false nd src i nR j nC
    simp only [Bool.false_eq_true, if_false] at hlen
    rw [Nat.mod_eq_of_lt h] at hlen
    have hnil : tileData F false nd src i nR j nC = [] := by
      refine List.length_eq_zero.1 ?_
      rw [hlen]
      split_ifs <;> omega
    simp [tileAggregate, hnil]
  have p2 : nC < F →
      ∀ row ∈ tileAggregate F false prop_nodata fname nd src i nR j nC, row = [] := by
    intro h row hrow
    have hcol : ((tileData F false nd src i nR j nC).headD []).length = 0 := by
      cases hd : tileData F false nd src i nR j nC with
      | nil => simp
      | cons r t =>
        have hr : r ∈ tileData F false nd src i nR j nC := by
          rw [hd]
          exact List.mem_cons_self r t
        have hrl := tileData_rowlen F false nd src i nR j nC r hr
        simp only [Bool.false_eq_true, if_false] at hrl
        rw [Nat.mod_eq_of_lt h] at hrl
        simp only [List.headD_cons]
        rw [hrl]
        split_ifs <;> omega
    simp only [tileAggregate] at hrow
    rw [hcol] at hrow
    simp only [Nat.zero_div, List.take_zero] at hrow
    obtain ⟨r, _, hr⟩ := List.mem_map.1 hrow
    exact hr.symm
  refine ⟨p1, p2, ?_⟩
  intro h
  rcases h with h | h
  · rw [p1 h]
    rfl
  · exact flatten_eq_nil_of_forall (p2 h)

/-- C8 (witness): a 1×5 trailing tile with `factor = 2` in shrink mode
aggregates to an empty tile. -/
theorem claim_C8_witness :
    tileAggregate 2 false false "sum" 0 (plainRaster 1 5 7) 0 1 0 5 = [] :=
  (claim_C8_empty_trailing_tile 2 false "sum" 0 (plainRaster 1 5 7) 0 1 0 5
    (by decide)).1 (by decide)

/-- C6: on a well-shaped tile buffer whose row count is not a multiple of
the factor, expand mode appends `factor - numRows % factor` rows of NaN
and shrink mode drops the last `numRows % factor` rows; after the
symmetric column rule is applied to the row-adjusted buffer, both the row
count and every row length of the normalized buffer are multiples of the
factor. -/
theorem claim_C6_edge_normalization (F nR nC : ℕ) (e : Bool) (d : List (List Val))
    (hF : 0 < F) (hlen : d.length = nR) (hrow : ∀ row ∈ d, row.length = nC)
    (hmod : nR % F ≠ 0) :
    adjustRows F true nR nC d =
      d ++ List.replicate (F - nR % F) (List.replicate nC none) ∧
    adjustRows F false nR nC d = d.take (nR - nR % F) ∧
    (adjustCols F e nC (adjustRows F e nR nC d)).length % F = 0 ∧
    ∀ row ∈ adjustCols F e nC (adjustRows F e nR nC d), row.length % F = 0 := by
  refine ⟨by simp [adjustRows, hmod], by simp [adjustRows, hmod], ?_, ?_⟩
  · rw [adjustCols_length, adjustRows_length F e nR nC d hlen]
    split_ifs with h1 h2
    · exact absurd h1 hmod
    · exact mod_pad_zero nR F hF
    · exact mod_trim_zero nR F
  · intro row hr
    have hl := adjustCols_rowlen F e nC _ (adjustRows_rowlen F e nR nC d hrow) row hr
    rw [hl]
    split_ifs with h1 h2
    · exact h1
    · exact mod_pad_zero nC F hF
    · exact mod_trim_zero nC F

/-- C6 (witness): the normalization law evaluated on a 3×3 buffer with
`factor = 2` in expand mode. -/
theorem claim_C6_witness :
    adjustRows 2 true 3 3 (List.replicate 3 (List.replicate 3 (some (0 : ℚ)))) =
      List.replicate 3 (List.replicate 3 (some (0 : ℚ))) ++ [List.replicate 3 none] ∧
    adjustRows 2 false 3 3 (List.replicate 3 (List.replicate 3 (some (0 : ℚ)))) =
      (List.replicate 3 (List.replicate 3 (some (0 : ℚ)))).take 2 ∧
    (adjustCols 2 true 3
        (adjustRows 2 true 3 3 (List.replicate 3 (List.replicate 3 (some (0 : ℚ)))))).length % 2 = 0 ∧
    ∀ row ∈ adjustCols 2 true 3
        (adjustRows 2 true 3 3 (List.replicate 3 (List.replicate 3 (some (0 : ℚ))))),
      row.length % 2 = 0 :=
  claim_C6_edge_normalization 2 3 3 true
    (List.replicate 3 (List.replicate 3 (some (0 : ℚ))))
    (by decide) (by decide) (by decide) (by decide)

/-- C3 (amended behaviour): for every source with at least one row and
column, every positive factor and every statistic name outside the
dispatch table, the expand-mode run creates the output raster and reads
the first block, and only then stops with the `KeyError` raised by
`functions[aggr_type]` at the first sub-block computation. -/
theorem claim_C3_keyerror_after_io (src : RasterIn) (F : ℕ) (aggr_type : String)
    (prop_nodata : Bool) (hF : 0 < F) (hr : 0 < src.rows) (hc : 0 < src.cols)
    (hun : List.lookup aggr_type functions = none) :
    runEvents src F aggr_type true prop_nodata =
      [Event.create (outSize src.cols F true) (outSize src.rows F true),
       Event.read 0 0 (numIn src.cols (200 * F) 0) (numIn src.rows (200 * F) 0),
       Event.keyError aggr_type] := by
  obtain ⟨t, ht⟩ := tiles_head src.rows src.cols F hr hc hF
  have hnR : 0 < numIn src.rows (200 * F) 0 := numIn_pos _ _ hr (by omega)
  have hnC : 0 < numIn src.cols (200 * F) 0 := numIn_pos _ _ hc (by omega)
  have hdlen : 0 < (tileData F true (src.nodata.getD defaultND) src
      0 (numIn src.rows (200 * F) 0) 0 (numIn src.cols (200 * F) 0)).length := by
    rw [tileData_length]
    split_ifs with h1 h2
    · omega
    · omega
    · exact absurd rfl h2
  have hdrow : 0 < ((tileData F true (src.nodata.getD defaultND) src
      0 (numIn src.rows (200 * F) 0) 0 (numIn src.cols (200 * F) 0)).headD []).length := by
    cases hd : tileData F true (src.nodata.getD defaultND) src
        0 (numIn src.rows (200 * F) 0) 0 (numIn src.cols (200 * F) 0) with
    | nil =>
      rw [hd] at hdlen
      simp at hdlen
    | cons r t2 =>
      have hr2 : r ∈ tileData F true (src.nodata.getD defaultND) src
          0 (numIn src.rows (200 * F) 0) 0 (numIn src.cols (200 * F) 0) := by
        rw [hd]
        exact List.mem_cons_self r t2
      have hrl := tileData_rowlen F true (src.nodata.getD defaultND) src
        0 (numIn src.rows (200 * F) 0) 0 (numIn src.cols (200 * F) 0) r hr2
      simp only [List.headD_cons]
      rw [hrl]
      split_ifs with h1 h2
      · omega
      · omega
      · exact absurd rfl h2
  simp only [runEvents]
  rw [ht]
  simp only [goTiles]
  rw [if_pos ⟨hdlen, hdrow, by rw [hun]; rfl⟩]

/-- C3 (witness for the amended behaviour): a concrete 2×2 raster with the
unknown statistic "QUUX" creates, reads, then raises the KeyError. -/
theorem claim_C3_keyerror_witness :
    runEvents (plainRaster 2 2 5) 2 "QUUX" true false =
      [Event.create 2 2, Event.read 0 0 2 2, Event.keyError "QUUX"] := by
  have h := claim_C3_keyerror_after_io (plainRaster 2 2 5) 2 "QUUX" false
    (by decide) (by decide) (by decide) rfl
  exact h
